import Mathlib

/-!
# statistic.li: the beacon endpoint and the read-side handlers

A shallow embedding of `application.go` (and of the request loops of
`application_test.go`).  Go strings are Lean strings, a `[]byte` is a list of
naturals below 256, a Go slice that may be `nil` is an `Option (List _)`, and
the effects of a handler (response headers, response body, the record handed to
`Save`, the random source behind `uuid.NewV4`) are passed explicitly.
-/

namespace StatisticLi

/-! ## HTTP data: time, cookies, requests, response writers -/

/-- A `time.Time` as the fields given to `time.Date`. -/
structure Time where
  year : Nat
  month : Nat
  day : Nat
  hour : Nat
  min : Nat
  sec : Nat
  nsec : Nat
  loc : String
deriving DecidableEq, Repr

/-- The fields of `http.Cookie` that the program reads or writes. `Expires` is
`none` for the zero time (a cookie parsed from a request has no expiry). -/
structure Cookie where
  Name : String
  Value : String
  Path : String
  Expires : Option Time
deriving DecidableEq, Repr

/-- The `url.Values` map (`map[string][]string`) as an association list. -/
abbrev Values := List (String × List String)

/-- `url.Values.Get`: the first value stored under `key`, or `""` when the key
is absent or has no values. -/
def Values.Get (v : Values) (key : String) : String :=
  match v.lookup key with
  | some (x :: _) => x
  | _ => ""

/-- The parts of `*http.Request` the handlers read: `r.URL.Path`, the parsed
query `r.URL.Query()`, and the cookies parsed from the `Cookie` header in
header order. -/
structure Request where
  Path : String
  Query : Values
  Cookies : List Cookie
deriving Repr

/-- `r.Cookie(name)`: the first cookie of that name, `none` for `ErrNoCookie`. -/
def Request.Cookie (r : Request) (name : String) : Option Cookie :=
  r.Cookies.find? (fun c => c.Name == name)

/-- An `http.Header` (`map[string][]string`) as an association list. -/
abbrev Header := List (String × List String)

/-- `Header.Set`: replace whatever is stored under `key` by the single value. -/
def Header.Set (h : Header) (key value : String) : Header :=
  (key, [value]) :: h.filter (fun kv => kv.1 != key)

/-- `Header.Get`: the first value under `key`, or `""`. -/
def Header.Get (h : Header) (key : String) : String :=
  match h.lookup key with
  | some (x :: _) => x
  | _ => ""

/-- An `http.ResponseWriter`: the header map without its `Set-Cookie` lines,
the `Set-Cookie` lines in the order `http.SetCookie` added them (each kept as
the cookie it serialises), and the bytes written to the body. -/
structure ResponseWriter where
  header : Header
  setCookies : List Cookie
  body : List Nat
deriving DecidableEq, Repr

/-- The response writer a handler starts from. -/
def ResponseWriter.fresh : ResponseWriter := ⟨[], [], []⟩

/-- `w.Header().Set(key, value)`. -/
def ResponseWriter.SetHeader (w : ResponseWriter) (key value : String) : ResponseWriter :=
  { w with header := Header.Set w.header key value }

/-- `w.Write(b)`. -/
def ResponseWriter.Write (w : ResponseWriter) (b : List Nat) : ResponseWriter :=
  { w with body := w.body ++ b }

/-- The bytes of a Go string made of ASCII characters. -/
def stringBytes (s : String) : List Nat := s.toList.map Char.toNat

/-- The separator characters that `net/http` accepts in a token besides
letters and digits. -/
def tokenSymbols : List Char := "!#$%&'*+-.^_`|~".toList

/-- `net/http`: whether a rune is a token character. -/
def isTokenRune (c : Char) : Bool :=
  c.isAlphanum || tokenSymbols.contains c

/-- `net/http` `isCookieNameValid`: non-empty and made of token characters. -/
def isCookieNameValid (raw : String) : Bool :=
  raw != "" && raw.toList.all isTokenRune

/-- `http.SetCookie(w, cookie)`: one `Set-Cookie` line is added when the cookie
serialises, that is when its name is valid; otherwise nothing is added. -/
def SetCookie (w : ResponseWriter) (cookie : Cookie) : ResponseWriter :=
  if isCookieNameValid cookie.Name then
    { w with setCookies := w.setCookies ++ [cookie] }
  else w

/-! ## Identifiers -/

/-- A `uuid.UUID`, sixteen bytes. -/
structure UUID where
  bytes : Fin 16 → Fin 256

/-- One lower-case hexadecimal digit. -/
def hexDigit (n : Nat) : Char :=
  "0123456789abcdef".toList.getD n '0'

/-- The `%x` verb on a byte slice: two lower-case digits for each byte. -/
def hexBytes (bs : List (Fin 256)) : List Char :=
  bs.flatMap (fun b => [hexDigit (b.val / 16), hexDigit (b.val % 16)])

/-- The bytes `u[lo:hi]` of the array. -/
def UUID.slice (u : UUID) (lo hi : Nat) : List (Fin 256) :=
  ((List.finRange 16).filter (fun i => lo ≤ i.val && i.val < hi)).map u.bytes

/-- `(*UUID).String`: the format `%x-%x-%x-%x-%x` over
`u[0:4], u[4:6], u[6:8], u[8:10], u[10:]`. -/
def UUID.String (u : UUID) : String :=
  String.mk (hexBytes (u.slice 0 4) ++ '-' :: hexBytes (u.slice 4 6) ++ '-' ::
    hexBytes (u.slice 6 8) ++ '-' :: hexBytes (u.slice 8 10) ++ '-' :: hexBytes (u.slice 10 16))

/-- The random source behind `uuid.NewV4`: `stream k` is the value of the
`k`-th call, `used` counts the calls made so far. -/
structure Rand where
  stream : Nat → UUID
  used : Nat

/-- `generateNewUUID`: `u4, _ := uuid.NewV4(); return u4.String()`. -/
def generateNewUUID (g : Rand) : String × Rand :=
  ((g.stream g.used).String, { g with used := g.used + 1 })

/-! ## The beacon -/

/-- The record `ClientHit` with the four fields `tracker` fills. -/
structure ClientHit where
  ClientID : String
  UserID : String
  Page : String
  Referer : String
deriving DecidableEq, Repr

/-- `tracker_gif`: the fixed payload. -/
def tracker_gif : List Nat :=
  [0x47, 0x49, 0x46, 0x38, 0x39, 0x61, 0x01, 0x00, 0x01, 0x00, 0x80, 0x00,
   0x00, 0x00, 0x00, 0x00, 0xff, 0xff, 0xff, 0x21, 0xf9, 0x04, 0x01, 0x00,
   0x00, 0x00, 0x00, 0x2c, 0x00, 0x00, 0x00, 0x00, 0x01, 0x00, 0x01, 0x00,
   0x00, 0x02, 0x01, 0x44, 0x00, 0x3b]

/-- What a run of `tracker` leaves behind: the response writer, the record on
which `Save` was called, the store after `Save`, and the random source. -/
structure TrackerOut (σ : Type) where
  w : ResponseWriter
  saved : ClientHit
  db : σ
  rand : Rand

/-- `tracker`.  `Save` is the store's insert (`clientHit.Save()`), whose code is
not part of these sources: it maps the record and the store to the new store
and an outcome (`true` for success), and `tracker` discards the outcome. -/
def tracker {σ : Type} (Save : ClientHit → σ → σ × Bool) (clientId : String)
    (w : ResponseWriter) (r : Request) (db : σ) (g : Rand) : TrackerOut σ :=
  let page := r.Query.Get "page"
  let referer := r.Query.Get "referer"
  let referer := if referer = "" then "(direct)" else referer
  let clientHit : ClientHit :=
    { ClientID := clientId, UserID := "", Page := page, Referer := referer }
  let (clientHit, w, g) :=
    match r.Cookie "sts" with
    | some cookie => ({ clientHit with UserID := cookie.Value }, w, g)
    | none =>
      let (userId, g) := generateNewUUID g
      let w := SetCookie w
        { Name := "sts", Value := userId, Path := "/",
          Expires := some ⟨3000, 1, 1, 1, 0, 0, 0, "UTC"⟩ }
      ({ clientHit with UserID := userId }, w, g)
  let (db, _) := Save clientHit db
  let w := w.SetHeader "Content-Type" "image/gif"
  let w := w.Write tracker_gif
  { w := w, saved := clientHit, db := db, rand := g }

/-! ## Routing -/

/-- The loop of `strings.Split` for a one-character separator: `acc` holds the
current piece in reverse. -/
def splitAux (sep : Char) : List Char → List Char → List String
  | acc, [] => [String.mk acc.reverse]
  | acc, c :: cs =>
    if c = sep then String.mk acc.reverse :: splitAux sep [] cs
    else splitAux sep (c :: acc) cs

/-- `strings.Split(s, sep)` for a separator of one character. -/
def Split (s : String) (sep : Char) : List String :=
  splitAux sep [] s.toList

/-- `io.WriteString(w, s)` for an ASCII string. -/
def WriteString (w : ResponseWriter) (s : String) : ResponseWriter :=
  w.Write (stringBytes s)

/-- The five handlers `clientHandler` dispatches to, over a state `σ` that
stands for the store and the random source. -/
structure Handlers (σ : Type) where
  dash : String → ResponseWriter → Request → σ → ResponseWriter × σ
  tracker : String → ResponseWriter → Request → σ → ResponseWriter × σ
  uniques : String → ResponseWriter → Request → σ → ResponseWriter × σ
  referers : String → ResponseWriter → Request → σ → ResponseWriter × σ
  pages : String → ResponseWriter → Request → σ → ResponseWriter × σ

/-- `clientHandler`.  A run-time panic of the Go code (a slice or index
expression out of range) is `Except.error` with the panic's message.  The path
of an HTTP request starts with `/`, so `r.URL.Path[1:]` drops that character. -/
def clientHandler {σ : Type} (H : Handlers σ) (w : ResponseWriter) (r : Request) (s : σ) :
    Except String (ResponseWriter × σ) :=
  if r.Path.length < 1 then .error "slice bounds out of range [1:0]" else
  let pathParts := Split (r.Path.drop 1) '/'
  match pathParts[1]? with
  | none => .error "index out of range [1]"
  | some clientId =>
    match pathParts[2]? with
    | none => .error "index out of range [2]"
    | some action =>
      if action = "dash" then .ok (H.dash clientId w r s)
      else if action = "tracker.gif" then .ok (H.tracker clientId w r s)
      else if action = "uniques" then .ok (H.uniques clientId w r s)
      else if action = "referers" then .ok (H.referers clientId w r s)
      else if action = "pages" then .ok (H.pages clientId w r s)
      else .ok (WriteString w "Not Found", s)

/-! ## The ranked read side -/

/-- A `StringCount`: a value and the number of hits carrying it. -/
structure StringCount where
  String : String
  Count : Int
deriving DecidableEq, Repr

/-- The slice type `StringCounts`; `none` is the `nil` slice. -/
abbrev StringCounts := Option (List StringCount)

/-- `len(s)`. -/
def StringCounts.len : StringCounts → Nat
  | none => 0
  | some l => l.length

/-- `s[:n]` for `n ≤ len(s)`; slicing the `nil` slice gives `nil`. -/
def StringCounts.upTo : StringCounts → Nat → StringCounts
  | none, _ => none
  | some l, n => some (l.take n)

/-- The entries of the slice, none for `nil`. -/
def StringCounts.entries : StringCounts → List StringCount
  | none => []
  | some l => l

/-- The UTF-8 bytes of a string. -/
def utf8Bytes (s : String) : List Nat :=
  s.toList.flatMap (fun c => (String.utf8EncodeChar c).map UInt8.toNat)

/-- The escape `encoding/json` writes for one character of a string when HTML
escaping is on (as it is in `json.Marshal`): a backslash before the quote and
the backslash, the short forms for newline, carriage return and tab, and a
`u00XX` or `u202X` escape for the other control characters, for the characters
`<`, `>`, `&` and for the two Unicode line separators. -/
def jsonEscapeChar (c : Char) : List Char :=
  let bs := Char.ofNat 92
  if c = Char.ofNat 34 ∨ c = bs then [bs, c]
  else if c = Char.ofNat 10 then [bs, 'n']
  else if c = Char.ofNat 13 then [bs, 'r']
  else if c = Char.ofNat 9 then [bs, 't']
  else if c.toNat < 32 ∨ c = '<' ∨ c = '>' ∨ c = '&' then
    [bs, 'u', '0', '0', hexDigit (c.toNat / 16), hexDigit (c.toNat % 16)]
  else if c.toNat = 0x2028 ∨ c.toNat = 0x2029 then
    [bs, 'u', '2', '0', '2', hexDigit (c.toNat % 16)]
  else [c]

/-- A string as `encoding/json` writes it. -/
def jsonString (s : String) : String :=
  String.mk (Char.ofNat 34 :: s.toList.flatMap jsonEscapeChar ++ [Char.ofNat 34])

/-- One `StringCount` as `encoding/json` writes it: the exported fields in
declaration order under their own names. -/
def jsonStringCount (c : StringCount) : String :=
  "\x7b\"String\":" ++ jsonString c.String ++ ",\"Count\":" ++ toString c.Count ++ "\x7d"

/-- `json.Marshal` on a `StringCounts`: `null` for the `nil` slice, otherwise
the entries between brackets, separated by commas. -/
def jsonMarshal : StringCounts → List Nat
  | none => utf8Bytes "null"
  | some l => utf8Bytes ("[" ++ ",".intercalate (l.map jsonStringCount) ++ "]")

/-- `referers`.  `TopReferers` is the store query, whose code is not part of
these sources. -/
def referers (TopReferers : String → StringCounts) (clientId : String)
    (w : ResponseWriter) (_r : Request) : ResponseWriter :=
  let w := w.SetHeader "Content-Type" "application/json"
  let topReferers := TopReferers clientId
  let topReferers := if topReferers.len > 10 then topReferers.upTo 10 else topReferers
  let b := jsonMarshal topReferers
  w.Write b

/-- `pages`.  `TopPages` is the store query, whose code is not part of these
sources. -/
def pages (TopPages : String → StringCounts) (clientId : String)
    (w : ResponseWriter) (_r : Request) : ResponseWriter :=
  let w := w.SetHeader "Content-Type" "application/json"
  let topPages := TopPages clientId
  let topPages := if topPages.len > 10 then topPages.upTo 10 else topPages
  let b := jsonMarshal topPages
  w.Write b

/-- The slice `hits` of `TestReferers`. -/
def TestReferers.hits : List StringCount :=
  [⟨"(direct)", 11⟩,
   ⟨"http://referer.com/page1.html", 10⟩,
   ⟨"http://referer.com/page2.html", 9⟩,
   ⟨"http://referer.com/page3.html", 8⟩,
   ⟨"http://referer.com/page4.html", 7⟩,
   ⟨"http://referer.com/page5.html", 6⟩,
   ⟨"http://referer.com/page6.html", 5⟩,
   ⟨"http://referer.com/page7.html", 4⟩,
   ⟨"http://referer.com/page8.html", 3⟩,
   ⟨"http://referer.com/page9.html", 2⟩,
   ⟨"http://referer.com/page10.html", 1⟩]

/-- Sorted descending by count. -/
def SortedDesc (l : List StringCount) : Prop :=
  l.Pairwise (fun a b => b.Count ≤ a.Count)

/-- Modelled from the spec: the store query `groupByCount` of §4.3, whose code
is missing from the sources.  The hits of `clientId` are partitioned by the
value of the chosen field and every distinct value is returned with the number
of its occurrences. -/
def groupByCount (hits : List ClientHit) (clientId : String) (field : ClientHit → String) :
    List StringCount :=
  let values := (hits.filter (fun h => h.ClientID = clientId)).map field
  values.dedup.map (fun v => ⟨v, (values.count v : Nat)⟩)

/-- Modelled from the spec: `TopReferers` of §4.4, whose code is missing from
the sources: `groupByCount` on the referer, sorted descending by count and cut
to the first ten entries; the result is a sequence, never null. -/
def TopReferers (hits : List ClientHit) (clientId : String) : StringCounts :=
  some (((groupByCount hits clientId ClientHit.Referer).insertionSort
    (fun a b => b.Count ≤ a.Count)).take 10)

/-- Modelled from the spec: `TopPages` of §4.4, whose code is missing from the
sources: as `TopReferers`, grouped on the page. -/
def TopPages (hits : List ClientHit) (clientId : String) : StringCounts :=
  some (((groupByCount hits clientId ClientHit.Page).insertionSort
    (fun a b => b.Count ≤ a.Count)).take 10)

/-! ## Sequences of beacon requests -/

/-- The server as a sequence of beacon requests sees it: the records handed to
`Save` so far, oldest first, and the random source. -/
structure Server where
  saved : List ClientHit
  rand : Rand

/-- A server that has recorded nothing yet. -/
def Server.start (g : Rand) : Server := ⟨[], g⟩

/-- An insert over no store at all: the records handed to `Save` are kept in
`Server.saved` instead. -/
def noStore (_h : ClientHit) (_db : Unit) : Unit × Bool := ((), true)

/-- One beacon request served by `tracker` on a fresh response writer
(`client.Do(request)` on `/client/<clientId>/tracker.gif`). -/
def Server.Do (clientId : String) (srv : Server) (r : Request) : Server × ResponseWriter :=
  let out := tracker noStore clientId ResponseWriter.fresh r () srv.rand
  (⟨srv.saved ++ [out.saved], out.rand⟩, out.w)

/-- The requests of a list served in order; the responses come back in the
same order. -/
def Server.DoAll (clientId : String) : Server → List Request → Server × List ResponseWriter
  | srv, [] => (srv, [])
  | srv, r :: rs =>
    let (srv1, w) := srv.Do clientId r
    let (srv2, ws) := Server.DoAll clientId srv1 rs
    (srv2, w :: ws)

/-- The values of the `sts` cookies a response sets. -/
def issuedBy (w : ResponseWriter) : List String :=
  (w.setCookies.filter (fun c => c.Name = "sts")).map Cookie.Value

/-- Every request of the list that carries an `sts` cookie presents a value
that a response to an earlier request of the list has set (`issued` collects
the values set so far). -/
def PresentsIssued (clientId : String) : Server → List String → List Request → Prop
  | _, _, [] => True
  | srv, issued, r :: rs =>
    (∀ c, r.Cookie "sts" = some c → c.Value ∈ issued) ∧
    PresentsIssued clientId (srv.Do clientId r).1 (issued ++ issuedBy (srv.Do clientId r).2) rs

/-- The number of requests of the list without an `sts` cookie. -/
def cookieless (rs : List Request) : Nat :=
  rs.countP (fun r => (r.Cookie "sts").isNone)

/-- The number of distinct `UserID` values among records. -/
def distinctUsers (hits : List ClientHit) : Nat :=
  (hits.map ClientHit.UserID).dedup.length

/-- The first `n` values of the random source from its current position are
pairwise different as strings. -/
def FreshDistinct (g : Rand) (n : Nat) : Prop :=
  ((List.range n).map (fun i => (g.stream (g.used + i)).String)).Nodup

instance (g : Rand) (n : Nat) : Decidable (FreshDistinct g n) := by
  unfold FreshDistinct
  infer_instance

/-- `request.AddCookie(c)`: the name and the value travel in the `Cookie`
header (a value made of hexadecimal digits and dashes passes the sanitiser of
`net/http` unchanged). -/
def Request.AddCookie (r : Request) (c : StatisticLi.Cookie) : Request :=
  { r with Cookies := r.Cookies ++ [⟨c.Name, c.Value, "", none⟩] }

/-- The request `GET /client/<clientId>/tracker.gif` without query or cookie. -/
def beaconRequest (clientId : String) : Request :=
  ⟨"/client/" ++ clientId ++ "/tracker.gif", [], []⟩

/-- `n` times `client.Do(request)`. -/
def Server.repeatDo (clientId : String) (r : Request) : Nat → Server → Server
  | 0, srv => srv
  | n + 1, srv => Server.repeatDo clientId r n (srv.Do clientId r).1

/-- One turn of the outer loop of `TestUniqueViewsAreExposed`: the request is
sent twice without a cookie, the cookies of the first response are added to
it, and it is sent five more times. -/
def TestUniqueViewsAreExposed.turn (clientId : String) (srv : Server) : Server :=
  let request := beaconRequest clientId
  let (srv, response) := srv.Do clientId request
  let (srv, _) := srv.Do clientId request
  let request := response.setCookies.foldl Request.AddCookie request
  Server.repeatDo clientId request 5 srv

/-- The outer loop of `TestUniqueViewsAreExposed`: `numberOfUsers = 5` turns
for `clientId = "andrewvos.com"`. -/
def TestUniqueViewsAreExposed.loop (srv : Server) : Server :=
  Nat.iterate (TestUniqueViewsAreExposed.turn "andrewvos.com") 5 srv

/-- One visitor of the scenario of §8 of the specification: one request
without a cookie, then five with the cookie the response issued. -/
def specScenario.visitor (clientId : String) (srv : Server) : Server :=
  let request := beaconRequest clientId
  let (srv, response) := srv.Do clientId request
  let request := response.setCookies.foldl Request.AddCookie request
  Server.repeatDo clientId request 5 srv

/-- The scenario of §8 of the specification: five visitors of
`"andrewvos.com"`, six requests each. -/
def specScenario.run (srv : Server) : Server :=
  Nat.iterate (specScenario.visitor "andrewvos.com") 5 srv

/-- A random source for examples: the `k`-th value has `k % 256` as its first
byte and zeros elsewhere. -/
def Rand.counting : Rand :=
  ⟨fun k => ⟨fun i => if i.val = 0 then ⟨k % 256, Nat.mod_lt _ (by decide)⟩ else 0⟩, 0⟩

/-- A store that accepts every insert: the record is appended. -/
def acceptAll (h : ClientHit) (db : List ClientHit) : List ClientHit × Bool :=
  (db ++ [h], true)

/-- A store that rejects every insert: nothing is recorded. -/
def rejectAll (_h : ClientHit) (db : List ClientHit) : List ClientHit × Bool :=
  (db, false)

/-- The far-future expiry `time.Date(3000, 1, 1, 1, 0, 0, 0, time.UTC)`. -/
def farFuture : Time := ⟨3000, 1, 1, 1, 0, 0, 0, "UTC"⟩

/-! ## Evaluation lemmas for `tracker` -/

theorem isCookieNameValid_sts : isCookieNameValid "sts" = true := by decide

theorem tracker_of_cookie {σ : Type} (Save : ClientHit → σ → σ × Bool) (clientId : String)
    (w : ResponseWriter) (r : Request) (db : σ) (g : Rand) (c : Cookie)
    (h : r.Cookie "sts" = some c) :
    (tracker Save clientId w r db g).saved.UserID = c.Value ∧
    (tracker Save clientId w r db g).rand = g ∧
    (tracker Save clientId w r db g).w =
      (w.SetHeader "Content-Type" "image/gif").Write tracker_gif := by
  simp [tracker, h]

theorem tracker_of_no_cookie {σ : Type} (Save : ClientHit → σ → σ × Bool) (clientId : String)
    (w : ResponseWriter) (r : Request) (db : σ) (g : Rand)
    (h : r.Cookie "sts" = none) :
    (tracker Save clientId w r db g).saved.UserID = (g.stream g.used).String ∧
    (tracker Save clientId w r db g).rand = ⟨g.stream, g.used + 1⟩ ∧
    (tracker Save clientId w r db g).w =
      ((SetCookie w ⟨"sts", (g.stream g.used).String, "/", some farFuture⟩).SetHeader
        "Content-Type" "image/gif").Write tracker_gif := by
  simp [tracker, h, generateNewUUID, farFuture]

theorem tracker_referer {σ : Type} (Save : ClientHit → σ → σ × Bool) (clientId : String)
    (w : ResponseWriter) (r : Request) (db : σ) (g : Rand) :
    (tracker Save clientId w r db g).saved.Referer =
      if r.Query.Get "referer" = "" then "(direct)" else r.Query.Get "referer" := by
  unfold tracker
  cases r.Cookie "sts" <;> simp

theorem Header_Get_Set (h : Header) (key value : String) :
    Header.Get (Header.Set h key value) key = value := by
  simp [Header.Get, Header.Set, List.lookup]

theorem UUID_String_ne_empty (u : UUID) : u.String ≠ "" := by
  intro h
  have := congrArg String.length h
  simp [UUID.String, String.length] at this

/-! ## Claims -/

/-- C8: `tracker_gif` is a constant of 42 bytes that starts with the signature
`GIF89a`, declares a logical screen of width 1 and height 1 (little-endian
16-bit), carries at offset 19, where its two-entry colour table ends, a graphic
control extension `21 F9 04` whose packed byte has the transparency bit set and
whose block ends at offset 26, carries at offset 27 an image descriptor `2C` of
width 1 and height 1, and ends with the trailer `3B`. -/
theorem tracker_gif_layout :
    tracker_gif.length = 42 ∧
    tracker_gif.take 6 = stringBytes "GIF89a" ∧
    tracker_gif.getD 6 0 + 256 * tracker_gif.getD 7 0 = 1 ∧
    tracker_gif.getD 8 0 + 256 * tracker_gif.getD 9 0 = 1 ∧
    13 + 3 * 2 ^ (tracker_gif.getD 10 0 % 8 + 1) = 19 ∧
    (tracker_gif.drop 19).take 3 = [0x21, 0xF9, 0x04] ∧
    tracker_gif.getD 22 0 % 2 = 1 ∧
    tracker_gif.getD 26 0 = 0 ∧
    tracker_gif.getD 27 0 = 0x2C ∧
    tracker_gif.getD 32 0 + 256 * tracker_gif.getD 33 0 = 1 ∧
    tracker_gif.getD 34 0 + 256 * tracker_gif.getD 35 0 = 1 ∧
    tracker_gif.getLast? = some 0x3B ∧
    (∀ b ∈ tracker_gif, b < 256) := by
  decide

/-- C1: the record `tracker` hands to `Save` has `Referer = "(direct)"` when
the `referer` query parameter is absent and when it is the empty string, has
the parameter's value when that is non-empty, and is never the empty string. -/
theorem tracker_referer_normalized {σ : Type} (Save : ClientHit → σ → σ × Bool)
    (clientId : String) (w : ResponseWriter) (r : Request) (db : σ) (g : Rand) :
    (r.Query.lookup "referer" = none →
      (tracker Save clientId w r db g).saved.Referer = "(direct)") ∧
    (r.Query.Get "referer" = "" →
      (tracker Save clientId w r db g).saved.Referer = "(direct)") ∧
    (r.Query.Get "referer" ≠ "" →
      (tracker Save clientId w r db g).saved.Referer = r.Query.Get "referer") ∧
    (tracker Save clientId w r db g).saved.Referer ≠ "" := by
  rw [tracker_referer]
  refine ⟨?_, ?_, ?_, ?_⟩
  · intro h
    simp [Values.Get, h]
  · intro h
    simp [h]
  · intro h
    simp [h]
  · split
    · decide
    · assumption

/-- Witness for C1: a request without query gets `"(direct)"`, a request with
`referer=http://referer.com/page1.html` keeps that value. -/
theorem tracker_referer_normalized_witness :
    (tracker rejectAll "CLIENT_ID" ResponseWriter.fresh
      ⟨"/client/CLIENT_ID/tracker.gif", [], []⟩ [] Rand.counting).saved.Referer = "(direct)" ∧
    (tracker rejectAll "CLIENT_ID" ResponseWriter.fresh
      ⟨"/client/CLIENT_ID/tracker.gif", [("referer", ["http://referer.com/page1.html"])], []⟩
        [] Rand.counting).saved.Referer = "http://referer.com/page1.html" :=
  ⟨(tracker_referer_normalized rejectAll "CLIENT_ID" ResponseWriter.fresh
      ⟨"/client/CLIENT_ID/tracker.gif", [], []⟩ [] Rand.counting).1 rfl,
   (tracker_referer_normalized rejectAll "CLIENT_ID" ResponseWriter.fresh
      ⟨"/client/CLIENT_ID/tracker.gif", [("referer", ["http://referer.com/page1.html"])], []⟩
        [] Rand.counting).2.2.1 (by decide)⟩

/-- C2: whatever the insert does, `tracker` appends exactly the bytes of
`tracker_gif` to the body (on a fresh writer the body is `tracker_gif`), sets
`Content-Type` to `image/gif`, and leaves the same response writer for any two
inserts and stores; in particular for the store that rejects every insert and
the store that accepts every insert. -/
theorem tracker_response_ignores_save {σ τ : Type} (Save : ClientHit → σ → σ × Bool)
    (Save2 : ClientHit → τ → τ × Bool) (clientId : String) (w : ResponseWriter) (r : Request)
    (db : σ) (db2 : τ) (hits : List ClientHit) (g : Rand) :
    (tracker Save clientId w r db g).w.body = w.body ++ tracker_gif ∧
    (tracker Save clientId ResponseWriter.fresh r db g).w.body = tracker_gif ∧
    Header.Get (tracker Save clientId w r db g).w.header "Content-Type" = "image/gif" ∧
    (tracker Save clientId w r db g).w = (tracker Save2 clientId w r db2 g).w ∧
    (tracker rejectAll clientId w r hits g).w = (tracker acceptAll clientId w r hits g).w := by
  cases h : r.Cookie "sts" with
  | none =>
    simp [tracker_of_no_cookie _ _ _ _ _ _ h, ResponseWriter.Write, ResponseWriter.SetHeader,
      Header_Get_Set, SetCookie, ResponseWriter.fresh]
    split <;> simp
  | some c =>
    simp [tracker_of_cookie _ _ _ _ _ _ c h, ResponseWriter.Write, ResponseWriter.SetHeader,
      Header_Get_Set, ResponseWriter.fresh]

theorem Server_Do_of_cookie (clientId : String) (srv : Server) (r : Request) (c : Cookie)
    (h : r.Cookie "sts" = some c) :
    ∃ hit, hit.UserID = c.Value ∧ (srv.Do clientId r).1 = ⟨srv.saved ++ [hit], srv.rand⟩ ∧
      issuedBy (srv.Do clientId r).2 = [] := by
  refine ⟨_, (tracker_of_cookie noStore clientId ResponseWriter.fresh r () srv.rand c h).1, ?_, ?_⟩
  · simp [Server.Do, (tracker_of_cookie noStore clientId ResponseWriter.fresh r () srv.rand c h).2.1]
  · simp only [Server.Do, issuedBy,
      (tracker_of_cookie noStore clientId ResponseWriter.fresh r () srv.rand c h).2.2]
    simp [ResponseWriter.Write, ResponseWriter.SetHeader, ResponseWriter.fresh]

theorem Server_Do_of_no_cookie (clientId : String) (srv : Server) (r : Request)
    (h : r.Cookie "sts" = none) :
    ∃ hit, hit.UserID = (srv.rand.stream srv.rand.used).String ∧
      (srv.Do clientId r).1 = ⟨srv.saved ++ [hit], ⟨srv.rand.stream, srv.rand.used + 1⟩⟩ ∧
      (srv.Do clientId r).2.setCookies =
        [⟨"sts", (srv.rand.stream srv.rand.used).String, "/", some farFuture⟩] ∧
      issuedBy (srv.Do clientId r).2 = [(srv.rand.stream srv.rand.used).String] := by
  refine ⟨_, (tracker_of_no_cookie noStore clientId ResponseWriter.fresh r () srv.rand h).1, ?_, ?_, ?_⟩
  · simp [Server.Do, (tracker_of_no_cookie noStore clientId ResponseWriter.fresh r () srv.rand h).2.1]
  · simp only [Server.Do,
      (tracker_of_no_cookie noStore clientId ResponseWriter.fresh r () srv.rand h).2.2]
    simp [ResponseWriter.Write, ResponseWriter.SetHeader, ResponseWriter.fresh, SetCookie,
      isCookieNameValid_sts]
  · simp only [Server.Do, issuedBy,
      (tracker_of_no_cookie noStore clientId ResponseWriter.fresh r () srv.rand h).2.2]
    simp [ResponseWriter.Write, ResponseWriter.SetHeader, ResponseWriter.fresh, SetCookie,
      isCookieNameValid_sts]

theorem Server_DoAll_same_cookie (clientId : String) (v : String) (rs : List Request) :
    ∀ srv : Server, (∀ r ∈ rs, ∃ c, r.Cookie "sts" = some c ∧ c.Value = v) →
      (Server.DoAll clientId srv rs).1.saved.map ClientHit.UserID =
        srv.saved.map ClientHit.UserID ++ List.replicate rs.length v := by
  induction rs with
  | nil => intro srv _; simp [Server.DoAll]
  | cons r rs ih =>
    intro srv h
    obtain ⟨c, hc, hv⟩ := h r (List.mem_cons_self _ _)
    obtain ⟨hit, hu, hs, _⟩ := Server_Do_of_cookie clientId srv r c hc
    have ih2 := ih (srv.Do clientId r).1 (fun q hq => h q (List.mem_cons_of_mem _ hq))
    simp only [Server.DoAll]
    rw [ih2, hs]
    simp [hu, hv, List.replicate_succ]

/-- C3: when `r.Cookie("sts")` yields a cookie of value `v`, the record
`tracker` hands to `Save` has `UserID = v`, whatever the string `v` is; and a
sequence of `N` requests that all present the value `v` adds `N` records that
all carry `UserID = v`, for every `N`. -/
theorem tracker_reuses_cookie_value (clientId : String) (v : String) (rs : List Request)
    (srv : Server) (h : ∀ r ∈ rs, ∃ c, r.Cookie "sts" = some c ∧ c.Value = v) :
    (∀ r ∈ rs, ∀ (σ : Type) (Save : ClientHit → σ → σ × Bool) (w : ResponseWriter) (db : σ)
      (g : Rand), (tracker Save clientId w r db g).saved.UserID = v) ∧
    (Server.DoAll clientId srv rs).1.saved.map ClientHit.UserID =
      srv.saved.map ClientHit.UserID ++ List.replicate rs.length v := by
  refine ⟨?_, Server_DoAll_same_cookie clientId v rs srv h⟩
  intro r hr σ Save w db g
  obtain ⟨c, hc, hv⟩ := h r hr
  rw [(tracker_of_cookie Save clientId w r db g c hc).1, hv]

/-- Witness for C3: three requests presenting `sts=user0`, as `hitTracker`
sends them, are recorded as `user0` three times. -/
theorem tracker_reuses_cookie_value_witness :
    (Server.DoAll "CLIENT_ID" (Server.start Rand.counting)
      (List.replicate 3 ⟨"/client/CLIENT_ID/tracker.gif", [], [⟨"sts", "user0", "", none⟩]⟩)
      ).1.saved.map ClientHit.UserID = ["user0", "user0", "user0"] :=
  (tracker_reuses_cookie_value "CLIENT_ID" "user0"
    (List.replicate 3 ⟨"/client/CLIENT_ID/tracker.gif", [], [⟨"sts", "user0", "", none⟩]⟩)
    (Server.start Rand.counting)
    (by
      intro r hr
      rw [List.eq_of_mem_replicate hr]
      exact ⟨⟨"sts", "user0", "", none⟩, rfl, rfl⟩)).2

/-- C4: `tracker` adds a `Set-Cookie` line exactly when the request carries no
`sts` cookie.  Without an `sts` cookie it adds exactly one: name `sts`, value
the `UserID` of the record handed to `Save` for that request, path `/`, expiry
3000-01-01 01:00:00 UTC.  With an `sts` cookie it adds none. -/
theorem tracker_set_cookie {σ : Type} (Save : ClientHit → σ → σ × Bool) (clientId : String)
    (w : ResponseWriter) (r : Request) (db : σ) (g : Rand) :
    (r.Cookie "sts" = none →
      (tracker Save clientId w r db g).w.setCookies = w.setCookies ++
        [⟨"sts", (tracker Save clientId w r db g).saved.UserID, "/",
          some ⟨3000, 1, 1, 1, 0, 0, 0, "UTC"⟩⟩]) ∧
    ((r.Cookie "sts").isSome →
      (tracker Save clientId w r db g).w.setCookies = w.setCookies) ∧
    ((tracker Save clientId ResponseWriter.fresh r db g).w.setCookies.length =
      if r.Cookie "sts" = none then 1 else 0) ∧
    ((tracker Save clientId ResponseWriter.fresh r db g).w.setCookies ≠ [] ↔
      r.Cookie "sts" = none) := by
  cases h : r.Cookie "sts" with
  | none =>
    simp [tracker_of_no_cookie _ _ _ _ _ _ h, ResponseWriter.Write, ResponseWriter.SetHeader,
      SetCookie, isCookieNameValid_sts, ResponseWriter.fresh, farFuture]
  | some c =>
    simp [tracker_of_cookie _ _ _ _ _ _ c h, ResponseWriter.Write, ResponseWriter.SetHeader,
      ResponseWriter.fresh]

/-- Witness for C4: the request of `TestTrackerRespondsWithGif`, which has no
cookie, gets one `sts` cookie whose value is the recorded `UserID`. -/
theorem tracker_set_cookie_witness :
    (tracker rejectAll "MY_CLIENT_ID" ResponseWriter.fresh (beaconRequest "MY_CLIENT_ID") []
      Rand.counting).w.setCookies =
      [⟨"sts", "00000000-0000-0000-0000-000000000000", "/",
        some ⟨3000, 1, 1, 1, 0, 0, 0, "UTC"⟩⟩] :=
  (tracker_set_cookie rejectAll "MY_CLIENT_ID" ResponseWriter.fresh
    (beaconRequest "MY_CLIENT_ID") [] Rand.counting).1 rfl

/-- C7 fails as stated: a request whose `Cookie` header is `sts=` carries an
`sts` cookie with the empty value, and the record handed to `Save` then has the
empty `UserID`. -/
theorem tracker_empty_cookie_gives_empty_user :
    (Request.Cookie ⟨"/client/CLIENT_ID/tracker.gif", [], [⟨"sts", "", "", none⟩]⟩ "sts").isSome
      = true ∧
    (tracker rejectAll "CLIENT_ID" ResponseWriter.fresh
      ⟨"/client/CLIENT_ID/tracker.gif", [], [⟨"sts", "", "", none⟩]⟩ [] Rand.counting
      ).saved.UserID = "" := by
  decide

/-- C7 as amended: the record handed to `Save` has an empty `UserID` exactly
when the request carries an `sts` cookie whose value is empty; so a request
without an `sts` cookie, and a request whose `sts` cookie has a non-empty
value, are recorded with a non-empty `UserID`. -/
theorem tracker_user_nonempty_iff {σ : Type} (Save : ClientHit → σ → σ × Bool)
    (clientId : String) (w : ResponseWriter) (r : Request) (db : σ) (g : Rand) :
    ((tracker Save clientId w r db g).saved.UserID = "" ↔
      ∃ c, r.Cookie "sts" = some c ∧ c.Value = "") ∧
    (r.Cookie "sts" = none → (tracker Save clientId w r db g).saved.UserID ≠ "") ∧
    (∀ c, r.Cookie "sts" = some c → c.Value ≠ "" →
      (tracker Save clientId w r db g).saved.UserID ≠ "") := by
  cases h : r.Cookie "sts" with
  | none =>
    simp [(tracker_of_no_cookie _ _ _ _ _ _ h).1, UUID_String_ne_empty]
  | some c =>
    simp [(tracker_of_cookie _ _ _ _ _ _ c h).1]

/-- Witness for C7 as amended: a request without cookie and a request with
`sts=user0` are both recorded with a non-empty `UserID`. -/
theorem tracker_user_nonempty_iff_witness :
    (tracker rejectAll "CLIENT_ID" ResponseWriter.fresh (beaconRequest "CLIENT_ID") []
      Rand.counting).saved.UserID ≠ "" ∧
    (tracker rejectAll "CLIENT_ID" ResponseWriter.fresh
      ⟨"/client/CLIENT_ID/tracker.gif", [], [⟨"sts", "user0", "", none⟩]⟩ []
      Rand.counting).saved.UserID ≠ "" :=
  ⟨(tracker_user_nonempty_iff rejectAll "CLIENT_ID" ResponseWriter.fresh
      (beaconRequest "CLIENT_ID") [] Rand.counting).2.1 rfl,
   (tracker_user_nonempty_iff rejectAll "CLIENT_ID" ResponseWriter.fresh
      ⟨"/client/CLIENT_ID/tracker.gif", [], [⟨"sts", "user0", "", none⟩]⟩ []
      Rand.counting).2.2 ⟨"sts", "user0", "", none⟩ rfl (by decide)⟩

theorem splitAux_length (sep : Char) (cs : List Char) :
    ∀ acc : List Char, (splitAux sep acc cs).length = cs.count sep + 1 := by
  induction cs with
  | nil => intro acc; simp [splitAux]
  | cons c cs ih =>
    intro acc
    by_cases h : c = sep
    · simp [splitAux, h, ih]
    · simp [splitAux, h, ih, List.count_cons]

/-- The reads of `pathParts[1]` and `pathParts[2]` are both in range exactly
when the path has a first character and at least two `/` after it. -/
theorem clientHandler_ok_iff {σ : Type} (H : Handlers σ) (w : ResponseWriter) (r : Request)
    (s : σ) :
    (clientHandler H w r s).isOk = true ↔
      1 ≤ r.Path.length ∧ 2 ≤ (r.Path.drop 1).toList.count '/' := by
  have hlen : (Split (r.Path.drop 1) '/').length = (r.Path.drop 1).toList.count '/' + 1 :=
    splitAux_length _ _ _
  unfold clientHandler
  by_cases hp : r.Path.length < 1
  · simp only [hp, if_true, Except.isOk, Except.toBool]
    constructor
    · intro h; cases h
    · intro h; omega
  · simp only [hp, if_false]
    cases h1 : (Split (r.Path.drop 1) '/')[1]? with
    | none =>
      have := List.getElem?_eq_none_iff.1 h1
      simp only [Except.isOk, Except.toBool]
      constructor
      · intro h; cases h
      · intro h; omega
    | some clientId =>
      cases h2 : (Split (r.Path.drop 1) '/')[2]? with
      | none =>
        have := List.getElem?_eq_none_iff.1 h2
        simp only [Except.isOk, Except.toBool]
        constructor
        · intro h; cases h
        · intro h; omega
      | some action =>
        have h3 : 2 < (Split (r.Path.drop 1) '/').length := by
          by_contra hc
          rw [List.getElem?_eq_none_iff.2 (Nat.le_of_not_lt hc)] at h2
          cases h2
        have hok : 1 ≤ r.Path.length ∧ 2 ≤ (r.Path.drop 1).toList.count '/' := by
          constructor <;> omega
        simp only [hok, and_self, iff_true]
        split_ifs <;> rfl

/-- The paths the tests request are routed to the handler named by their third
segment, with the second segment as `clientId`. -/
theorem clientHandler_routes {σ : Type} (H : Handlers σ) (w : ResponseWriter) (r : Request)
    (s : σ) :
    clientHandler H w (beaconRequest "andrewvos.com") s =
      .ok (H.tracker "andrewvos.com" w (beaconRequest "andrewvos.com") s) ∧
    clientHandler H w { r with Path := "/client/CLIENT_ID/referers" } s =
      .ok (H.referers "CLIENT_ID" w { r with Path := "/client/CLIENT_ID/referers" } s) ∧
    clientHandler H w { r with Path := "/client/CLIENT_ID/pages" } s =
      .ok (H.pages "CLIENT_ID" w { r with Path := "/client/CLIENT_ID/pages" } s) ∧
    clientHandler H w { r with Path := "/client/CLIENT_ID/other" } s =
      .ok (WriteString w "Not Found", s) := by
  refine ⟨?_, ?_, ?_, ?_⟩ <;> rfl

/-- C10 fails on the code: for the paths `/client/ID` and `/client/`, which the
pattern `/client/` routes to `clientHandler`, the split path has two parts and
the read of `pathParts[2]` is out of range, whatever the handlers are; for `/`
already `pathParts[1]` is out of range. -/
theorem clientHandler_short_path_panics {σ : Type} (H : Handlers σ) (w : ResponseWriter)
    (s : σ) :
    Split ("/client/ID".drop 1) '/' = ["client", "ID"] ∧
    clientHandler H w ⟨"/client/ID", [], []⟩ s = .error "index out of range [2]" ∧
    Split ("/client/".drop 1) '/' = ["client", ""] ∧
    clientHandler H w ⟨"/client/", [], []⟩ s = .error "index out of range [2]" ∧
    clientHandler H w ⟨"/", [], []⟩ s = .error "index out of range [1]" := by
  refine ⟨by decide, ?_, by decide, ?_, ?_⟩ <;> rfl

theorem referers_body (Top : String → StringCounts) (clientId : String) (w : ResponseWriter)
    (r : Request) :
    (referers Top clientId w r).body =
      w.body ++ jsonMarshal ((Top clientId).upTo (min 10 (Top clientId).len)) := by
  unfold referers
  cases h : Top clientId with
  | none => simp [StringCounts.len, StringCounts.upTo, ResponseWriter.Write,
      ResponseWriter.SetHeader]
  | some l =>
    by_cases hl : 10 < l.length
    · simp [StringCounts.len, StringCounts.upTo, ResponseWriter.Write,
        ResponseWriter.SetHeader, hl, Nat.min_eq_left (Nat.le_of_lt hl)]
    · simp [StringCounts.len, StringCounts.upTo, ResponseWriter.Write,
        ResponseWriter.SetHeader, hl, Nat.min_eq_right (Nat.le_of_not_lt hl)]

theorem pages_body (Top : String → StringCounts) (clientId : String) (w : ResponseWriter)
    (r : Request) :
    (pages Top clientId w r).body =
      w.body ++ jsonMarshal ((Top clientId).upTo (min 10 (Top clientId).len)) := by
  unfold pages
  cases h : Top clientId with
  | none => simp [StringCounts.len, StringCounts.upTo, ResponseWriter.Write,
      ResponseWriter.SetHeader]
  | some l =>
    by_cases hl : 10 < l.length
    · simp [StringCounts.len, StringCounts.upTo, ResponseWriter.Write,
        ResponseWriter.SetHeader, hl, Nat.min_eq_left (Nat.le_of_lt hl)]
    · simp [StringCounts.len, StringCounts.upTo, ResponseWriter.Write,
        ResponseWriter.SetHeader, hl, Nat.min_eq_right (Nat.le_of_not_lt hl)]

theorem entries_upTo (s : StringCounts) (n : Nat) :
    (s.upTo n).entries = s.entries.take n := by
  cases s <;> simp [StringCounts.upTo, StringCounts.entries]

theorem len_eq_entries_length (s : StringCounts) : s.len = s.entries.length := by
  cases s <;> simp [StringCounts.len, StringCounts.entries]

theorem sortedDesc_split (l : List StringCount) (n : Nat) (h : SortedDesc l) :
    SortedDesc (l.take n) ∧ ∀ a ∈ l.take n, ∀ b ∈ l.drop n, b.Count ≤ a.Count := by
  unfold SortedDesc at *
  have h2 : (l.take n ++ l.drop n).Pairwise (fun a b => b.Count ≤ a.Count) := by
    rw [List.take_append_drop]; exact h
  rw [List.pairwise_append] at h2
  exact ⟨h2.1, h2.2.2⟩

/-- C5: for every sequence `s` that the store query returns, `referers` and
`pages` write the encoding of `s[:min(10, len(s))]`, whose entries are the
first `min(10, len(s))` entries of `s` in the same order; so the response has
at most 10 entries, exactly 10 when `s` has more than 10, and when `s` is
sorted descending by count the response is sorted descending by count and no
omitted entry has a count above an included one.  For the eleven referers of
`TestReferers` the response is the encoding of the first ten and the last
entry (`page10.html`, count 1) is left out. -/
theorem referers_pages_first_ten (Top : String → StringCounts) (clientId : String)
    (w : ResponseWriter) (r : Request) :
    (referers Top clientId w r).body =
      w.body ++ jsonMarshal ((Top clientId).upTo (min 10 (Top clientId).len)) ∧
    (pages Top clientId w r).body =
      w.body ++ jsonMarshal ((Top clientId).upTo (min 10 (Top clientId).len)) ∧
    ((Top clientId).upTo (min 10 (Top clientId).len)).entries =
      (Top clientId).entries.take (min 10 (Top clientId).len) ∧
    ((Top clientId).upTo (min 10 (Top clientId).len)).entries.length =
      min 10 (Top clientId).len ∧
    ((Top clientId).upTo (min 10 (Top clientId).len)).entries.length ≤ 10 ∧
    (10 < (Top clientId).len →
      ((Top clientId).upTo (min 10 (Top clientId).len)).entries.length = 10) ∧
    (SortedDesc (Top clientId).entries →
      SortedDesc ((Top clientId).upTo (min 10 (Top clientId).len)).entries ∧
      ∀ a ∈ ((Top clientId).upTo (min 10 (Top clientId).len)).entries,
        ∀ b ∈ (Top clientId).entries.drop (min 10 (Top clientId).len), b.Count ≤ a.Count) ∧
    (referers (fun _ => some TestReferers.hits) clientId ResponseWriter.fresh r).body =
      jsonMarshal (some (TestReferers.hits.take 10)) ∧
    TestReferers.hits.length = 11 ∧
    SortedDesc TestReferers.hits ∧
    TestReferers.hits.drop 10 = [⟨"http://referer.com/page10.html", 1⟩] ∧
    (⟨"http://referer.com/page10.html", 1⟩ : StringCount) ∉ TestReferers.hits.take 10 := by
  have hlen : ((Top clientId).upTo (min 10 (Top clientId).len)).entries.length =
      min 10 (Top clientId).len := by
    rw [entries_upTo, List.length_take, ← len_eq_entries_length]
    simp
  refine ⟨referers_body Top clientId w r, pages_body Top clientId w r, entries_upTo _ _, hlen,
    ?_, ?_, ?_, ?_, by decide, ?_, by decide, by decide⟩
  · rw [hlen]; exact Nat.min_le_left _ _
  · intro h; rw [hlen]; exact Nat.min_eq_left (Nat.le_of_lt h)
  · intro h
    rw [entries_upTo]
    exact sortedDesc_split _ _ h
  · rw [referers_body]
    simp [ResponseWriter.fresh, StringCounts.len, StringCounts.upTo, TestReferers.hits]
  · unfold SortedDesc TestReferers.hits
    decide

/-- Witness for C5: on the eleven referers of `TestReferers`, sorted descending,
the ten entries written are sorted descending and the omitted entry has no
larger count than any of them. -/
theorem referers_pages_first_ten_witness :
    SortedDesc (TestReferers.hits.take 10) ∧
    ∀ a ∈ TestReferers.hits.take 10, ∀ b ∈ TestReferers.hits.drop 10, b.Count ≤ a.Count :=
  (referers_pages_first_ten (fun _ => some TestReferers.hits) "CLIENT_ID" ResponseWriter.fresh
    ⟨"/client/CLIENT_ID/referers", [], []⟩).2.2.2.2.2.2.1 (by unfold SortedDesc TestReferers.hits; decide)

theorem groupByCount_no_hits (hits : List ClientHit) (clientId : String)
    (field : ClientHit → String) (h : ∀ x ∈ hits, x.ClientID ≠ clientId) :
    groupByCount hits clientId field = [] := by
  have : hits.filter (fun x => x.ClientID = clientId) = [] := by
    rw [List.filter_eq_nil_iff]
    intro x hx
    simpa using h x hx
  simp [groupByCount, this]

/-- C9: for a `clientId` without recorded hits the ranked queries return the
empty sequence (not null), and on an empty sequence `referers` and `pages`
leave it as it is and write the JSON literal `[]` (the bytes `5B 5D`). -/
theorem referers_pages_empty (hits : List ClientHit) (clientId : String) (r : Request)
    (h : ∀ x ∈ hits, x.ClientID ≠ clientId) :
    TopReferers hits clientId = some [] ∧
    TopPages hits clientId = some [] ∧
    (referers (TopReferers hits) clientId ResponseWriter.fresh r).body = utf8Bytes "[]" ∧
    (pages (TopPages hits) clientId ResponseWriter.fresh r).body = utf8Bytes "[]" ∧
    utf8Bytes "[]" = [0x5B, 0x5D] ∧
    (∀ Top : String → StringCounts, Top clientId = some [] →
      (referers Top clientId ResponseWriter.fresh r).body = utf8Bytes "[]" ∧
      (pages Top clientId ResponseWriter.fresh r).body = utf8Bytes "[]") := by
  have h1 : TopReferers hits clientId = some [] := by
    simp [TopReferers, groupByCount_no_hits hits clientId _ h]
  have h2 : TopPages hits clientId = some [] := by
    simp [TopPages, groupByCount_no_hits hits clientId _ h]
  have key : ∀ Top : String → StringCounts, Top clientId = some [] →
      (referers Top clientId ResponseWriter.fresh r).body = utf8Bytes "[]" ∧
      (pages Top clientId ResponseWriter.fresh r).body = utf8Bytes "[]" := by
    intro Top hT
    rw [referers_body, pages_body, hT]
    simp only [StringCounts.len, StringCounts.upTo, ResponseWriter.fresh, List.take_nil,
      List.nil_append, jsonMarshal, List.map_nil]
    exact ⟨by decide, by decide⟩
  exact ⟨h1, h2, (key _ h1).1, (key _ h2).2, by decide, key⟩

/-- Witness for C9: after hits for `andrewvos.com` only, `CLIENT_ID` has no
hits and its referers response is `[]`. -/
theorem referers_pages_empty_witness :
    (referers (TopReferers [⟨"andrewvos.com", "user0", "", "(direct)"⟩]) "CLIENT_ID"
      ResponseWriter.fresh ⟨"/client/CLIENT_ID/referers", [], []⟩).body = [0x5B, 0x5D] :=
  (referers_pages_empty [⟨"andrewvos.com", "user0", "", "(direct)"⟩] "CLIENT_ID"
    ⟨"/client/CLIENT_ID/referers", [], []⟩ (by decide)).2.2.1

theorem tracker_clientID {σ : Type} (Save : ClientHit → σ → σ × Bool) (clientId : String)
    (w : ResponseWriter) (r : Request) (db : σ) (g : Rand) :
    (tracker Save clientId w r db g).saved.ClientID = clientId := by
  unfold tracker
  cases r.Cookie "sts" <;> simp

theorem Server_Do_saved (clientId : String) (srv : Server) (r : Request) :
    ∃ hit, hit.ClientID = clientId ∧ (srv.Do clientId r).1.saved = srv.saved ++ [hit] :=
  ⟨_, tracker_clientID noStore clientId ResponseWriter.fresh r () srv.rand, rfl⟩

theorem Server_DoAll_clientID (clientId : String) (rs : List Request) :
    ∀ srv : Server, (∀ h ∈ srv.saved, h.ClientID = clientId) →
      ∀ h ∈ (Server.DoAll clientId srv rs).1.saved, h.ClientID = clientId := by
  induction rs with
  | nil => intro srv h; simpa [Server.DoAll] using h
  | cons r rs ih =>
    intro srv h
    simp only [Server.DoAll]
    apply ih
    obtain ⟨hit, hc, hs⟩ := Server_Do_saved clientId srv r
    rw [hs]
    intro x hx
    rcases List.mem_append.1 hx with hx | hx
    · exact h x hx
    · rw [List.mem_singleton.1 hx]; exact hc

/-- The users recorded by a sequence of requests that presents only issued
values: the users recorded before, and one fresh value for each request
without a cookie. -/
theorem Server_DoAll_users (clientId : String) (rs : List Request) :
    ∀ (srv : Server) (issued : List String),
      PresentsIssued clientId srv issued rs →
      (∀ v ∈ issued, v ∈ srv.saved.map ClientHit.UserID) →
      ∀ x, x ∈ (Server.DoAll clientId srv rs).1.saved.map ClientHit.UserID ↔
        (x ∈ srv.saved.map ClientHit.UserID ∨
          ∃ i, i < cookieless rs ∧ x = (srv.rand.stream (srv.rand.used + i)).String) := by
  induction rs with
  | nil =>
    intro srv issued _ _ x
    simp [Server.DoAll, cookieless]
  | cons r rs ih =>
    intro srv issued hp hsub x
    obtain ⟨hr, hrest⟩ := hp
    simp only [Server.DoAll]
    cases hc : r.Cookie "sts" with
    | some c =>
      obtain ⟨hit, hu, hs, hi⟩ := Server_Do_of_cookie clientId srv r c hc
      have hmem : c.Value ∈ srv.saved.map ClientHit.UserID := hsub _ (hr c hc)
      rw [hi, List.append_nil] at hrest
      have hsub2 : ∀ v ∈ issued, v ∈ (srv.Do clientId r).1.saved.map ClientHit.UserID := by
        intro v hv
        rw [hs]
        simp only [List.map_append, List.mem_append]
        exact Or.inl (hsub v hv)
      rw [ih _ issued hrest hsub2 x, hs]
      have hcl : cookieless (r :: rs) = cookieless rs := by
        simp [cookieless, List.countP_cons, hc]
      rw [hcl]
      simp only [List.map_append, List.mem_append, List.map_cons, List.map_nil,
        List.mem_singleton, hu]
      constructor
      · rintro ((h | h) | h)
        · exact Or.inl h
        · exact Or.inl (h ▸ hmem)
        · exact Or.inr h
      · rintro (h | h)
        · exact Or.inl (Or.inl h)
        · exact Or.inr h
    | none =>
      obtain ⟨hit, hu, hs, _, hi⟩ := Server_Do_of_no_cookie clientId srv r hc
      rw [hi] at hrest
      have hsub2 : ∀ v ∈ issued ++ [(srv.rand.stream srv.rand.used).String],
          v ∈ (srv.Do clientId r).1.saved.map ClientHit.UserID := by
        intro v hv
        rw [hs]
        simp only [List.map_append, List.mem_append, List.map_cons, List.map_nil,
          List.mem_singleton, hu] at hv ⊢
        rcases hv with hv | hv
        · exact Or.inl (hsub v hv)
        · exact Or.inr hv
      rw [ih _ _ hrest hsub2 x, hs]
      have hcl : cookieless (r :: rs) = cookieless rs + 1 := by
        simp [cookieless, List.countP_cons, hc]
      rw [hcl]
      simp only [List.map_append, List.mem_append, List.map_cons, List.map_nil,
        List.mem_singleton, hu]
      constructor
      · rintro ((h | h) | ⟨i, hi, h⟩)
        · exact Or.inl h
        · exact Or.inr ⟨0, Nat.succ_pos _, by simpa using h⟩
        · refine Or.inr ⟨i + 1, Nat.succ_lt_succ hi, ?_⟩
          rw [h]
          congr 2
          omega
      · rintro (h | ⟨i, hi, h⟩)
        · exact Or.inl (Or.inl h)
        · cases i with
          | zero => exact Or.inl (Or.inr (by simpa using h))
          | succ j =>
            refine Or.inr ⟨j, Nat.lt_of_succ_lt_succ hi, ?_⟩
            rw [h]
            congr 2
            omega

/-- Counting: records whose users are exactly the first `n` values of the
random source, pairwise different, have `n` distinct users. -/
theorem distinctUsers_of_mem_iff (hits : List ClientHit) (g : Rand) (n : Nat)
    (hfresh : FreshDistinct g n)
    (h : ∀ x, x ∈ hits.map ClientHit.UserID ↔
      ∃ i, i < n ∧ x = (g.stream (g.used + i)).String) :
    distinctUsers hits = n := by
  unfold distinctUsers
  rw [← List.card_toFinset]
  have : (hits.map ClientHit.UserID).toFinset =
      ((List.range n).map (fun i => (g.stream (g.used + i)).String)).toFinset := by
    ext x
    simp only [List.mem_toFinset, h, List.mem_map, List.mem_range]
    constructor
    · rintro ⟨i, hi, hx⟩; exact ⟨i, hi, hx.symm⟩
    · rintro ⟨i, hi, hx⟩; exact ⟨i, hi, hx.symm⟩
  rw [this, List.toFinset_card_of_nodup hfresh, List.length_map, List.length_range]

theorem Server_repeatDo_of_cookie (clientId : String) (r : Request) (c : Cookie)
    (h : r.Cookie "sts" = some c) : ∀ (n : Nat) (srv : Server),
    (Server.repeatDo clientId r n srv).rand = srv.rand ∧
    (Server.repeatDo clientId r n srv).saved.map ClientHit.UserID =
      srv.saved.map ClientHit.UserID ++ List.replicate n c.Value := by
  intro n
  induction n with
  | zero => intro srv; simp [Server.repeatDo]
  | succ n ih =>
    intro srv
    obtain ⟨hit, hu, hs, _⟩ := Server_Do_of_cookie clientId srv r c h
    simp only [Server.repeatDo]
    rw [(ih _).1, (ih _).2, hs]
    simp [hu, List.replicate_succ]

theorem beaconRequest_no_cookie (clientId : String) :
    (beaconRequest clientId).Cookie "sts" = none := rfl

theorem turn_users (clientId : String) (srv : Server) :
    (TestUniqueViewsAreExposed.turn clientId srv).rand =
      ⟨srv.rand.stream, srv.rand.used + 2⟩ ∧
    (TestUniqueViewsAreExposed.turn clientId srv).saved.map ClientHit.UserID =
      srv.saved.map ClientHit.UserID ++
        [(srv.rand.stream srv.rand.used).String, (srv.rand.stream (srv.rand.used + 1)).String] ++
        List.replicate 5 (srv.rand.stream srv.rand.used).String := by
  obtain ⟨hit1, hu1, hs1, hc1, _⟩ :=
    Server_Do_of_no_cookie clientId srv _ (beaconRequest_no_cookie clientId)
  obtain ⟨hit2, hu2, hs2, _, _⟩ :=
    Server_Do_of_no_cookie clientId (srv.Do clientId (beaconRequest clientId)).1 _
      (beaconRequest_no_cookie clientId)
  rw [hs1] at hu2 hs2
  simp only [] at hu2 hs2
  have hck : (Request.AddCookie (beaconRequest clientId)
      ⟨"sts", (srv.rand.stream srv.rand.used).String, "/", some farFuture⟩).Cookie "sts" =
      some ⟨"sts", (srv.rand.stream srv.rand.used).String, "", none⟩ := by
    simp [Request.Cookie, Request.AddCookie, beaconRequest]
  have hrep := Server_repeatDo_of_cookie clientId _ _ hck 5
    ⟨srv.saved ++ [hit1] ++ [hit2], ⟨srv.rand.stream, srv.rand.used + 1 + 1⟩⟩
  unfold TestUniqueViewsAreExposed.turn
  simp only []
  rw [hc1, hs1, hs2]
  simp only [List.foldl]
  rw [hrep.1, hrep.2]
  simp [hu1, hu2]

theorem visitor_users (clientId : String) (srv : Server) :
    (specScenario.visitor clientId srv).rand = ⟨srv.rand.stream, srv.rand.used + 1⟩ ∧
    (specScenario.visitor clientId srv).saved.map ClientHit.UserID =
      srv.saved.map ClientHit.UserID ++ [(srv.rand.stream srv.rand.used).String] ++
        List.replicate 5 (srv.rand.stream srv.rand.used).String := by
  obtain ⟨hit1, hu1, hs1, hc1, _⟩ :=
    Server_Do_of_no_cookie clientId srv _ (beaconRequest_no_cookie clientId)
  have hck : (Request.AddCookie (beaconRequest clientId)
      ⟨"sts", (srv.rand.stream srv.rand.used).String, "/", some farFuture⟩).Cookie "sts" =
      some ⟨"sts", (srv.rand.stream srv.rand.used).String, "", none⟩ := by
    simp [Request.Cookie, Request.AddCookie, beaconRequest]
  have hrep := Server_repeatDo_of_cookie clientId _ _ hck 5
    ⟨srv.saved ++ [hit1], ⟨srv.rand.stream, srv.rand.used + 1⟩⟩
  unfold specScenario.visitor
  simp only []
  rw [hc1, hs1]
  simp only [List.foldl]
  rw [hrep.1, hrep.2]
  simp [hu1]

theorem loop_users (g : Rand) :
    ∀ x, x ∈ (TestUniqueViewsAreExposed.loop (Server.start g)).saved.map ClientHit.UserID ↔
      ∃ i, i < 10 ∧ x = (g.stream (g.used + i)).String := by
  intro x
  simp only [TestUniqueViewsAreExposed.loop, Function.iterate_succ, Function.iterate_zero,
    Function.comp, id, turn_users, Server.start]
  simp only [List.map_nil, List.nil_append, List.mem_append, List.mem_cons, List.mem_replicate,
    List.mem_singleton, List.not_mem_nil, or_false, Nat.add_assoc, Nat.reduceAdd]
  constructor
  · intro h
    casesm* _ ∨ _ <;> (try casesm* _ ∧ _) <;>
      first
      | exact ⟨0, by decide, by assumption⟩
      | (refine ⟨_, ?_, by assumption⟩; decide)
  · rintro ⟨i, hi, rfl⟩
    interval_cases i <;> simp

theorem Server_DoAll_length (clientId : String) (rs : List Request) :
    ∀ srv : Server, (Server.DoAll clientId srv rs).1.saved.length =
      srv.saved.length + rs.length := by
  induction rs with
  | nil => intro srv; simp [Server.DoAll]
  | cons r rs ih =>
    intro srv
    obtain ⟨hit, _, hs⟩ := Server_Do_saved clientId srv r
    simp only [Server.DoAll]
    rw [ih, hs]
    simp only [List.length_append, List.length_cons, List.length_nil]
    omega

theorem scenario_users (g : Rand) :
    ∀ x, x ∈ (specScenario.run (Server.start g)).saved.map ClientHit.UserID ↔
      ∃ i, i < 5 ∧ x = (g.stream (g.used + i)).String := by
  intro x
  simp only [specScenario.run, Function.iterate_succ, Function.iterate_zero,
    Function.comp, id, visitor_users, Server.start]
  simp only [List.map_nil, List.nil_append, List.mem_append, List.mem_cons, List.mem_replicate,
    List.mem_singleton, List.not_mem_nil, or_false, Nat.add_assoc, Nat.reduceAdd]
  constructor
  · intro h
    casesm* _ ∨ _ <;> (try casesm* _ ∧ _) <;>
      first
      | exact ⟨0, by decide, by assumption⟩
      | (refine ⟨_, ?_, by assumption⟩; decide)
  · rintro ⟨i, hi, rfl⟩
    interval_cases i <;> simp

theorem loop_length (g : Rand) :
    (TestUniqueViewsAreExposed.loop (Server.start g)).saved.length = 35 := by
  have h := congrArg List.length (show
    (TestUniqueViewsAreExposed.loop (Server.start g)).saved.map ClientHit.UserID = _ from by
      simp only [TestUniqueViewsAreExposed.loop, Function.iterate_succ, Function.iterate_zero,
        Function.comp, id, turn_users, Server.start]
      rfl)
  simpa using h

theorem scenario_length (g : Rand) :
    (specScenario.run (Server.start g)).saved.length = 30 := by
  have h := congrArg List.length (show
    (specScenario.run (Server.start g)).saved.map ClientHit.UserID = _ from by
      simp only [specScenario.run, Function.iterate_succ, Function.iterate_zero,
        Function.comp, id, visitor_users, Server.start]
      rfl)
  simpa using h

/-- C6: when the values of `generateNewUUID` are pairwise different, a sequence
of beacon requests for one `clientId` in which every `sts` cookie presented was
set by an earlier response of the sequence is recorded with as many distinct
`UserID` values as it has requests without a cookie, and every record carries
that `clientId`.  The scenario of the specification (5 visitors, one request
without cookie and five with the issued cookie each, 30 requests) gives 5; the
loop of `TestUniqueViewsAreExposed` (5 turns of two requests without cookie and
five with the cookie of the first, 35 requests) gives 10. -/
theorem distinct_users_eq_cookieless (clientId : String) (g : Rand) :
    (∀ rs : List Request, FreshDistinct g (cookieless rs) →
      PresentsIssued clientId (Server.start g) [] rs →
      distinctUsers (Server.DoAll clientId (Server.start g) rs).1.saved = cookieless rs ∧
      (Server.DoAll clientId (Server.start g) rs).1.saved.length = rs.length ∧
      ∀ h ∈ (Server.DoAll clientId (Server.start g) rs).1.saved, h.ClientID = clientId) ∧
    (FreshDistinct g 5 →
      distinctUsers (specScenario.run (Server.start g)).saved = 5 ∧
      (specScenario.run (Server.start g)).saved.length = 30) ∧
    (FreshDistinct g 10 →
      distinctUsers (TestUniqueViewsAreExposed.loop (Server.start g)).saved = 10 ∧
      (TestUniqueViewsAreExposed.loop (Server.start g)).saved.length = 35) := by
  refine ⟨?_, ?_, ?_⟩
  · intro rs hfresh hp
    refine ⟨?_, ?_, ?_⟩
    · apply distinctUsers_of_mem_iff _ g _ hfresh
      intro x
      rw [Server_DoAll_users clientId rs (Server.start g) [] hp (by simp)]
      simp [Server.start]
    · have := Server_DoAll_length clientId rs (Server.start g)
      simpa [Server.start] using this
    · exact Server_DoAll_clientID clientId rs (Server.start g) (by simp [Server.start])
  · intro hfresh
    exact ⟨distinctUsers_of_mem_iff _ g 5 hfresh (scenario_users g), scenario_length g⟩
  · intro hfresh
    exact ⟨distinctUsers_of_mem_iff _ g 10 hfresh (loop_users g), loop_length g⟩

/-- Witness for C6: with the counting random source the loop of
`TestUniqueViewsAreExposed` records 10 distinct users, the scenario of the
specification 5, and a request without cookie followed by a request that
presents the issued value records 1. -/
theorem distinct_users_eq_cookieless_witness :
    distinctUsers (TestUniqueViewsAreExposed.loop (Server.start Rand.counting)).saved = 10 ∧
    distinctUsers (specScenario.run (Server.start Rand.counting)).saved = 5 ∧
    distinctUsers (Server.DoAll "andrewvos.com" (Server.start Rand.counting)
      [beaconRequest "andrewvos.com",
       ⟨"/client/andrewvos.com/tracker.gif", [],
        [⟨"sts", "00000000-0000-0000-0000-000000000000", "", none⟩]⟩]).1.saved = 1 :=
  ⟨((distinct_users_eq_cookieless "andrewvos.com" Rand.counting).2.2 (by decide)).1,
   ((distinct_users_eq_cookieless "andrewvos.com" Rand.counting).2.1 (by decide)).1,
   ((distinct_users_eq_cookieless "andrewvos.com" Rand.counting).1
      [beaconRequest "andrewvos.com",
       ⟨"/client/andrewvos.com/tracker.gif", [],
        [⟨"sts", "00000000-0000-0000-0000-000000000000", "", none⟩]⟩]
      (by decide)
      (by
        refine ⟨fun c h => ?_, fun c h => ?_, trivial⟩
        · simp [Request.Cookie, beaconRequest] at h
        · simp [Request.Cookie] at h
          subst h
          decide)).1⟩

end StatisticLi
